import Mathlib

/-!
# ubiquity-docker-plugin: the NFS remote client (`remote/nfs.go`)

A shallow embedding of `nfsRemoteClient.Attach`, `nfsRemoteClient.Detach` and the
helpers they call (`GetVolume`, `mount`, `unmount`, `isMounted`), together with the
two standard-library functions that decide the local mount path
(`strings.Split` and `path.Join` / `path.Clean`).

Go strings are byte strings; here they are `String`s (lists of characters).  The
only bytes the code inspects are the ASCII bytes `:`, `/` and `.`, which never occur
inside a multi-byte UTF-8 sequence, so splitting and cleaning by character agrees
with splitting and cleaning by byte on every valid UTF-8 string.
-/

namespace Ubiquity

/-! ## Standard library: `strings.Split`, `path.Clean`, `path.Join` -/

/-- Go `strings.Split(s, sep)` on the characters of `s`, for a one-byte separator
(both call sites pass `":"`): the pieces of `s` between consecutive occurrences of
`sep`; always at least one piece. -/
def splitChars (sep : Char) : List Char → List (List Char)
  | [] => [[]]
  | c :: cs =>
    if c = sep then [] :: splitChars sep cs
    else
      match splitChars sep cs with
      | [] => [[c]]
      | piece :: pieces => (c :: piece) :: pieces

/-- Go `strings.Split(s, sep)` with a one-byte separator. -/
def Split (s : String) (sep : Char) : List String :=
  (splitChars sep s.data).map String.mk

/-- The inner loop of the `..` case of `path.Clean`:
`for out.w > dotdot && out.index(out.w) != '/' { out.w-- }`, started at `w`;
the value is the final `out.w`. -/
def backtrack (out : List Char) (dotdot : Nat) : Nat → Nat
  | 0 => 0
  | w + 1 =>
    if dotdot < w + 1 ∧ out.get? (w + 1) ≠ some '/' then backtrack out dotdot w
    else w + 1

/-- The main loop `for r < n { switch ... }` of Go `path.Clean`.  `rest` is
`path[r:]`, `out` is the text written so far (`out.w = out.length`), `dotdot` is
the index where `..` must stop.  Every iteration consumes at least one character
of `rest`; `none` means the fuel ran out before `rest` did. -/
def cleanLoop (rooted : Bool) : Nat → List Char → List Char → Nat → Option (List Char)
  | 0, _, _, _ => none
  | fuel + 1, rest, out, dotdot =>
    match rest with
    | [] => some out
    | c :: tl =>
      if c = '/' then
        -- empty path element
        cleanLoop rooted fuel tl out dotdot
      else if c = '.' ∧ (tl = [] ∨ tl.head? = some '/') then
        -- . element
        cleanLoop rooted fuel tl out dotdot
      else if c = '.' ∧ tl.head? = some '.' ∧ (tl.tail = [] ∨ tl.tail.head? = some '/') then
        -- .. element: remove to last /
        if dotdot < out.length then
          -- can backtrack
          cleanLoop rooted fuel tl.tail (out.take (backtrack out dotdot (out.length - 1))) dotdot
        else if rooted = false then
          -- cannot backtrack, but not rooted, so append .. element
          let out1 := (if 0 < out.length then out ++ ['/'] else out) ++ ['.', '.']
          cleanLoop rooted fuel tl.tail out1 out1.length
        else
          cleanLoop rooted fuel tl.tail out dotdot
      else
        -- real path element: add slash if needed, then copy the element
        let out1 :=
          if (rooted = true ∧ out.length ≠ 1) ∨ (rooted = false ∧ out.length ≠ 0) then out ++ ['/']
          else out
        cleanLoop rooted fuel (rest.dropWhile (fun x => x != '/'))
          (out1 ++ rest.takeWhile (fun x => x != '/')) dotdot

/-- Go `path.Clean` on the characters of the path.  The loop is run with
`path.length + 1` units of fuel, which always suffices (`cleanChars_loop_isSome`), so
the last alternative is never taken. -/
def cleanChars (path : List Char) : List Char :=
  if path = [] then ['.']
  else
    let rooted : Bool := path.head? = some '/'
    let run :=
      if rooted then cleanLoop rooted (path.length + 1) path.tail ['/'] 1
      else cleanLoop rooted (path.length + 1) path [] 0
    match run with
    | some out => if out.length = 0 then ['.'] else out
    | none => path

/-- Go `path.Clean`. -/
def Clean (path : String) : String := String.mk (cleanChars path.data)

/-- Go `path.Join(elem...)`: the elements from the first non-empty one on, joined
with `/`, then cleaned; the empty string when every element is empty. -/
def Join (elem : List String) : String :=
  match elem.dropWhile (fun e => e = "") with
  | [] => ""
  | es => Clean (String.intercalate "/" es)

/-! ## Data model -/

/-- Go `error`: `none` is `nil`, `some msg` is an error whose `Error()` is `msg`. -/
abbrev error := Option String

/-- A dynamically typed config value (`interface{}` as decoded from JSON by
`encoding/json`).  `other` stands for every dynamic type that is neither `bool` nor
`string` (a `float64`, a slice, a map) and carries the text that `fmt` prints for
it under the verb `%s`. -/
inductive Value where
  | null
  | bool (b : Bool)
  | string (s : String)
  | other (rendering : String)
deriving DecidableEq, Repr

/-- A volume config, Go `map[string]interface{}`: a finite partial map from keys to
values (`none`: the key is absent; a `nil` map has every key absent). -/
abbrev Config := String → Option Value

/-- The two-value map lookup `v, ok := m[key]`: the zero value `nil` and `false`
when the key is absent. -/
def Config.lookup (m : Config) (key : String) : Value × Bool :=
  match m key with
  | some v => (v, true)
  | none => (Value.null, false)

/-- The text `fmt.Sprintf("%s", v)` prints for an `interface{}` operand: a string
prints as itself; `nil` and a `bool` are bad operands for `%s` and print as such; any
other value prints as its rendering. -/
def Value.fmtS : Value → String
  | Value.string s => s
  | Value.null => "%!s(<nil>)"
  | Value.bool true => "%!s(bool=true)"
  | Value.bool false => "%!s(bool=false)"
  | Value.other rendering => rendering

/-- Modelled from the spec: `resources.VolumeMetadata` (declared outside this file),
the server-side identity of a volume; `Attach` and `Detach` discard it. -/
structure VolumeMetadata where
  Name : String
  Mountpoint : String
deriving DecidableEq, Repr

/-- Modelled from the spec: `resources.MountResponse` (declared outside this file);
the source reads its field `Mountpoint`, the share locator. -/
structure MountResponse where
  Mountpoint : String
deriving DecidableEq, Repr

/-- Modelled from the spec: `resources.GetResponse` (declared outside this file);
the source reads its fields `Volume` and `Config`. -/
structure GetResponse where
  Volume : VolumeMetadata
  Config : Config

/-- An `*http.Response` as far as the source looks at it: its status code; the body
is only handed to the decoders of `Env`. -/
structure Response where
  StatusCode : Nat
  Body : String
deriving DecidableEq, Repr

/-- The fields of `nfsRemoteClient` that `GetVolume`, `Attach` and `Detach` read. -/
structure nfsRemoteClient where
  storageApiURL : String
  backendName : String
deriving DecidableEq, Repr

/-- The collaborators of the client, which are declared outside `nfs.go`, as
functions of their arguments.  Within one run of `Attach` or `Detach` no collaborator is called
twice with the same arguments, so nothing is lost by letting the answer depend on
the arguments only.

* `FormatURL`: `utils.FormatURL(storageApiURL, backendName, segments...)`;
* `HttpExecute method url`: `utils.HttpExecute` (the payload is `nil` at every call
  modelled here);
* `ExtractErrorResponse`, `UnmarshalMountResponse`, `UnmarshalGetResponse`:
  `utils.ExtractErrorResponse` and `utils.UnmarshalResponse` at the two target types;
* `Execute command args`: `utils.NewExecutor(logger).Execute`;
* `Output command args`: `exec.Command(command, args...).Output()`. -/
structure Env where
  FormatURL : String → String → List String → String
  HttpExecute : String → String → Response × error
  ExtractErrorResponse : Response → error
  UnmarshalMountResponse : Response → MountResponse × error
  UnmarshalGetResponse : Response → GetResponse × error
  Execute : String → List String → String × error
  Output : String → List String → String × error

/-- One externally visible action of a run, in the order issued. -/
inductive Event where
  | http (method url : String)
  | execute (command : String) (args : List String)
  | output (command : String) (args : List String)
deriving DecidableEq, Repr

/-- How a Go call ends: it returns its results, or it panics. -/
inductive Outcome (α : Type) where
  | returned (v : α)
  | panicked (msg : String)
deriving DecidableEq, Repr

/-- A run of an operation: the actions it issued and how it ended. -/
structure Run (α : Type) where
  trace : List Event
  outcome : Outcome α

/-! ## The operations of `nfsRemoteClient` -/

namespace nfsRemoteClient

/-- The source's `GetVolume`.  It cannot panic; the value is the trace together with
the three results. -/
def GetVolume (env : Env) (s : nfsRemoteClient) (name : String) :
    List Event × (VolumeMetadata × Config × error) :=
  let getRemoteURL := env.FormatURL s.storageApiURL s.backendName ["volumes", name]
  let trace := [Event.http "GET" getRemoteURL]
  match env.HttpExecute "GET" getRemoteURL with
  | (_, some _) => (trace, (⟨"", ""⟩, fun _ => none, some "Error in get volume remote call"))
  | (response, none) =>
    if response.StatusCode ≠ 200 then
      (trace, (⟨"", ""⟩, fun _ => none, env.ExtractErrorResponse response))
    else
      match env.UnmarshalGetResponse response with
      | (_, some _) =>
        (trace, (⟨"", ""⟩, fun _ => none,
          some "Error in unmarshalling response for get remote call"))
      | (getResponse, none) => (trace, (getResponse.Volume, getResponse.Config, none))

/-- The source's `mount`. -/
def mount (env : Env) (nfsShare remoteMountpoint : String) : List Event × (String × error) :=
  let args := ["mount", "-t", "nfs", nfsShare, remoteMountpoint]
  match env.Execute "sudo" args with
  | (output, some err) =>
    ([Event.execute "sudo" args],
      ("", some ("nfsRemoteClient: Failed to mount share " ++ nfsShare ++
        " to remote mountpoint " ++ remoteMountpoint ++ " (error \x27" ++ err ++
        "\x27, output \x27" ++ output ++ "\x27)\n")))
  | (_, none) => ([Event.execute "sudo" args], (remoteMountpoint, none))

/-- The source's `isMounted`: `grep -qs "<share>\s<mountpoint>" /proc/mounts`. -/
def isMounted (env : Env) (nfsShare remoteMountpoint : String) : List Event × Bool :=
  let command := "grep"
  let args := ["-qs", nfsShare ++ "\\s" ++ remoteMountpoint, "/proc/mounts"]
  match env.Output command args with
  | (_, some _) => ([Event.output command args], false)
  | (_, none) => ([Event.output command args], true)

/-- The source's `unmount`. -/
def unmount (env : Env) (remoteMountpoint : String) : List Event × error :=
  let args := ["umount", remoteMountpoint]
  match env.Execute "sudo" args with
  | (output, some err) =>
    ([Event.execute "sudo" args],
      some ("Failed to unmount remote mountpoint " ++ remoteMountpoint ++ " (error \x27" ++
        err ++ "\x27, output \x27" ++ output ++ "\x27)\n"))
  | (_, none) => ([Event.execute "sudo" args], none)

/-- The expression `path.Join("/mnt/", strings.Split(nfsShare, ":")[1])` of `Attach`
(line 157) and `Detach` (line 216); `none` when the index `[1]` is out of range,
where Go panics. -/
def remoteMountpointOf (nfsShare : String) : Option String :=
  match (Split nfsShare ':').get? 1 with
  | none => none
  | some remotePath => some (Join ["/mnt/", remotePath])

/-- The permission step of `Attach` (lines 178-199), entered after a successful
`mkdir`: the trace, and `none` to go on to the mount or `some r` to end the run. -/
def attachPermissions (env : Env) (volumeConfig : Config) (remoteMountpoint : String) :
    List Event × Option (Outcome (String × error)) :=
  match volumeConfig.lookup "isPreexisting" with
  | (_, false) => ([], none)
  | (Value.bool true, true) => ([], none)
  | (Value.bool false, true) =>
    let (uid, uidSpecified) := volumeConfig.lookup "uid"
    let (gid, gidSpecified) := volumeConfig.lookup "gid"
    if uidSpecified || gidSpecified then
      let args := ["chown", uid.fmtS ++ ":" ++ gid.fmtS, remoteMountpoint]
      match env.Execute "sudo" args with
      | (_, some err) => ([Event.execute "sudo" args], some (Outcome.returned ("", some err)))
      | (_, none) => ([Event.execute "sudo" args], none)
    else
      -- chmod 777 mountpoint
      let args := ["chmod", "777", remoteMountpoint]
      match env.Execute "sudo" args with
      | (_, some err) => ([Event.execute "sudo" args], some (Outcome.returned ("", some err)))
      | (_, none) => ([Event.execute "sudo" args], none)
  | (_, true) =>
    -- isPreexisting.(bool) on a value that is not a bool
    ([], some (Outcome.panicked "interface conversion: interface \x7b\x7d is not bool"))

/-- The source's `Attach`. -/
def Attach (env : Env) (s : nfsRemoteClient) (name : String) : Run (String × error) :=
  let attachRemoteURL := env.FormatURL s.storageApiURL s.backendName ["volumes", name, "attach"]
  let t1 := [Event.http "PUT" attachRemoteURL]
  match env.HttpExecute "PUT" attachRemoteURL with
  | (_, some _) => ⟨t1, Outcome.returned ("", some "Error in attach volume remote call")⟩
  | (response, none) =>
    if response.StatusCode ≠ 200 then
      ⟨t1, Outcome.returned ("", env.ExtractErrorResponse response)⟩
    else
      match env.UnmarshalMountResponse response with
      | (_, some _) =>
        ⟨t1, Outcome.returned ("", some "Error in unmarshalling response for attach remote call")⟩
      | (mountResponse, none) =>
        let nfsShare := mountResponse.Mountpoint
        match remoteMountpointOf nfsShare with
        | none => ⟨t1, Outcome.panicked "runtime error: index out of range"⟩
        | some remoteMountpoint =>
          match GetVolume env s name with
          | (t2, (_, _, some err)) => ⟨t1 ++ t2, Outcome.returned ("", some err)⟩
          | (t2, (_, volumeConfig, none)) =>
            match isMounted env nfsShare remoteMountpoint with
            | (t3, true) => ⟨t1 ++ t2 ++ t3, Outcome.returned (remoteMountpoint, none)⟩
            | (t3, false) =>
              let args := ["mkdir", "-p", remoteMountpoint]
              let t4 := [Event.execute "sudo" args]
              match env.Execute "sudo" args with
              | (_, some err) =>
                ⟨t1 ++ t2 ++ t3 ++ t4,
                  Outcome.returned ("", some ("nfsRemoteClient: Failed to mkdir for remote mountpoint "
                    ++ remoteMountpoint ++ " (share " ++ nfsShare ++ ", error \x27" ++ err ++
                    "\x27)\n"))⟩
              | (_, none) =>
                match attachPermissions env volumeConfig remoteMountpoint with
                | (t5, some r) => ⟨t1 ++ t2 ++ t3 ++ t4 ++ t5, r⟩
                | (t5, none) =>
                  let (t6, r) := mount env nfsShare remoteMountpoint
                  ⟨t1 ++ t2 ++ t3 ++ t4 ++ t5 ++ t6, Outcome.returned r⟩

/-- The type assertion `volumeConfig["nfs_share"].(string)` of `Detach`; `none` where
Go panics (the key is absent, so the value is `nil`, or the value is not a string). -/
def nfsShareOf (volumeConfig : Config) : Option String :=
  match (volumeConfig.lookup "nfs_share").1 with
  | Value.string nfs_share => some nfs_share
  | _ => none

/-- The source's `Detach`. -/
def Detach (env : Env) (s : nfsRemoteClient) (name : String) : Run error :=
  match GetVolume env s name with
  | (t1, (_, _, some err)) => ⟨t1, Outcome.returned (some err)⟩
  | (t1, (_, volumeConfig, none)) =>
    match nfsShareOf volumeConfig with
    | none => ⟨t1, Outcome.panicked "interface conversion: interface \x7b\x7d is not string"⟩
    | some nfs_share =>
      match remoteMountpointOf nfs_share with
      | none => ⟨t1, Outcome.panicked "runtime error: index out of range"⟩
      | some remoteMountpoint =>
        match unmount env remoteMountpoint with
        | (t2, some err) => ⟨t1 ++ t2, Outcome.returned (some err)⟩
        | (t2, none) =>
          let detachRemoteURL :=
            env.FormatURL s.storageApiURL s.backendName ["volumes", name, "detach"]
          let t3 := [Event.http "PUT" detachRemoteURL]
          match env.HttpExecute "PUT" detachRemoteURL with
          | (_, some _) => ⟨t1 ++ t2 ++ t3, Outcome.returned (some "Error in detach volume remote call")⟩
          | (response, none) =>
            if response.StatusCode ≠ 200 then
              ⟨t1 ++ t2 ++ t3, Outcome.returned (env.ExtractErrorResponse response)⟩
            else ⟨t1 ++ t2 ++ t3, Outcome.returned none⟩

end nfsRemoteClient

/-! ## Sample inputs -/

/-- A config given by its list of entries. -/
def configOf (entries : List (String × Value)) : Config := fun key => entries.lookup key

/-- A sample client. -/
def sampleClient : nfsRemoteClient := ⟨"http://ubiquity:9999/ubiquity_storage", "spectrum-scale-nfs"⟩

/-- A sample environment.  Every remote call answers with status 200; the attach
response carries the share locator `nfsShare`, the get response carries
`volumeConfig`; `grep` finds the mount exactly when `mounted`; a command run through
the executor fails exactly when its first argument is listed in `failing`. -/
def sampleEnv (nfsShare : String) (volumeConfig : Config) (mounted : Bool)
    (failing : List String) : Env :=
  Env.mk
    (fun api backend segments => api ++ "/" ++ backend ++ "/" ++ String.intercalate "/" segments)
    (fun _ _ => (⟨200, ""⟩, none))
    (fun _ => some "remote error")
    (fun _ => (⟨nfsShare⟩, none))
    (fun _ => (⟨⟨"vol1", nfsShare⟩, volumeConfig⟩, none))
    (fun _ args => if failing.contains (args.headD "") then ("", some "exit status 1") else ("", none))
    (fun _ _ => if mounted then ("", none) else ("", some "exit status 1"))

/-- The config `{isPreexisting: false, uid: "1000", gid: "1000"}`. -/
def configOwned : Config :=
  configOf [("isPreexisting", Value.bool false), ("uid", Value.string "1000"),
    ("gid", Value.string "1000")]

/-- The config `{isPreexisting: false, uid: "1000"}`: `gid` is absent. -/
def configUidOnly : Config :=
  configOf [("isPreexisting", Value.bool false), ("uid", Value.string "1000")]

/-- The config `{isPreexisting: false}`. -/
def configFresh : Config := configOf [("isPreexisting", Value.bool false)]

/-- The config `{isPreexisting: true, uid: "1000", gid: "1000"}`. -/
def configPreexisting : Config :=
  configOf [("isPreexisting", Value.bool true), ("uid", Value.string "1000"),
    ("gid", Value.string "1000")]

/-- The config `{nfs_share: "server1:/export/vol1"}`. -/
def configShare : Config := configOf [("nfs_share", Value.string "server1:/export/vol1")]

open nfsRemoteClient

/-- The remote attach call of `Attach env s name` succeeds (no transport error,
status 200, decodable body) and its response carries the share locator `nfsShare`. -/
def AttachCallSucceeds (env : Env) (s : nfsRemoteClient) (name nfsShare : String) : Prop :=
  ∃ response mountResponse,
    env.HttpExecute "PUT" (env.FormatURL s.storageApiURL s.backendName ["volumes", name, "attach"])
      = (response, none) ∧
    response.StatusCode = 200 ∧
    env.UnmarshalMountResponse response = (mountResponse, none) ∧
    mountResponse.Mountpoint = nfsShare

/-- The call `GetVolume env s name` returns the config `volumeConfig` and no error. -/
def GetVolumeSucceeds (env : Env) (s : nfsRemoteClient) (name : String)
    (volumeConfig : Config) : Prop :=
  (GetVolume env s name).2.2 = (volumeConfig, none)

/-- The request `PUT .../volumes/<name>/attach`. -/
def attachRequest (env : Env) (s : nfsRemoteClient) (name : String) : Event :=
  Event.http "PUT" (env.FormatURL s.storageApiURL s.backendName ["volumes", name, "attach"])

/-- The request `GET .../volumes/<name>`. -/
def getRequest (env : Env) (s : nfsRemoteClient) (name : String) : Event :=
  Event.http "GET" (env.FormatURL s.storageApiURL s.backendName ["volumes", name])

/-- The request `PUT .../volumes/<name>/detach`. -/
def detachRequest (env : Env) (s : nfsRemoteClient) (name : String) : Event :=
  Event.http "PUT" (env.FormatURL s.storageApiURL s.backendName ["volumes", name, "detach"])

/-- The mount-table probe `grep -qs "<share>\s<mountpoint>" /proc/mounts`. -/
def probeCommand (nfsShare remoteMountpoint : String) : Event :=
  Event.output "grep" ["-qs", nfsShare ++ "\\s" ++ remoteMountpoint, "/proc/mounts"]

/-- The command `sudo mkdir -p <mountpoint>`. -/
def mkdirCommand (remoteMountpoint : String) : Event :=
  Event.execute "sudo" ["mkdir", "-p", remoteMountpoint]

/-- The command `sudo chown <owner> <mountpoint>`. -/
def chownCommand (owner remoteMountpoint : String) : Event :=
  Event.execute "sudo" ["chown", owner, remoteMountpoint]

/-- The command `sudo chmod <mode> <mountpoint>`. -/
def chmodCommand (mode remoteMountpoint : String) : Event :=
  Event.execute "sudo" ["chmod", mode, remoteMountpoint]

/-- The command `sudo mount -t nfs <share> <mountpoint>`. -/
def mountCommand (nfsShare remoteMountpoint : String) : Event :=
  Event.execute "sudo" ["mount", "-t", "nfs", nfsShare, remoteMountpoint]

/-- The command `sudo umount <mountpoint>`. -/
def umountCommand (remoteMountpoint : String) : Event :=
  Event.execute "sudo" ["umount", remoteMountpoint]

/-- Whether an event runs the program `program` through the executor
(`sudo <program> ...`). -/
def Event.runs (program : String) : Event → Bool
  | Event.execute _ args => args.head? == some program
  | _ => false

/-- Whether the executor command of an event ended without error in `env`; events
that are not executor commands count as succeeded. -/
def Event.succeeded (env : Env) : Event → Bool
  | Event.execute command args => (env.Execute command args).2.isNone
  | _ => true

/-- Whether the text is `/mnt` alone or begins with `/mnt/`. -/
def underMnt (out : List Char) : Prop :=
  ∃ suffix, out = ['/', 'm', 'n', 't'] ++ suffix ∧ (suffix = [] ∨ suffix.head? = some '/')

/-- Cases of the table `cleantests` of Go's `path_test.go`: a path and its `Clean`. -/
def cleantests : List (String × String) :=
  [("", "."), ("abc", "abc"), ("abc/def", "abc/def"), (".", "."), ("..", ".."),
   ("../..", "../.."), ("../../abc", "../../abc"), ("/abc", "/abc"), ("/", "/"),
   ("abc/", "abc"), ("./", "."), ("../", ".."), ("../../", "../.."), ("/abc/", "/abc"),
   ("abc//def//ghi", "abc/def/ghi"), ("//abc", "/abc"), ("///abc", "/abc"),
   ("//abc//", "/abc"), ("abc//", "abc"),
   ("abc/./def", "abc/def"), ("/./abc/def", "/abc/def"), ("abc/.", "abc"),
   ("abc/def/ghi/../jkl", "abc/def/jkl"), ("abc/def/../ghi/../jkl", "abc/jkl"),
   ("abc/def/..", "abc"), ("abc/def/../..", "."), ("/abc/def/../..", "/"),
   ("abc/def/../../..", ".."), ("/abc/def/../../..", "/"),
   ("abc/def/../../../ghi/jkl/../../../mno", "../../mno"),
   ("abc/./../def", "def"), ("abc//./../def", "def"), ("abc/../../././../def", "../../def")]

/-- Cases of the table `jointests` of Go's `path_test.go`: elements and their `Join`. -/
def jointests : List (List String × String) :=
  [([], ""), ([""], ""), (["a"], "a"), (["a", "b"], "a/b"), (["a", ""], "a"), (["", "b"], "b"),
   (["/", "a"], "/a"), (["/", ""], "/"), (["a/", "b"], "a/b"), (["a/", ""], "a"), (["", ""], "")]

/-! ## Lemmas on the standard-library functions -/

theorem length_dropWhile_le_length {α : Type} (p : α → Bool) (l : List α) :
    (l.dropWhile p).length ≤ l.length := by
  induction l with
  | nil => simp
  | cons a l ih =>
    simp only [List.dropWhile_cons]
    split
    · simp only [List.length_cons]; omega
    · simp

/-- The fuel `Clean` gives its loop suffices: the loop ends with a result whenever
the fuel exceeds the number of characters left to read. -/
theorem cleanLoop_isSome (rooted : Bool) (fuel : Nat) :
    ∀ (rest out : List Char) (dotdot : Nat), rest.length < fuel →
      (cleanLoop rooted fuel rest out dotdot).isSome = true := by
  induction fuel with
  | zero => intro rest out dotdot h; omega
  | succ fuel ih =>
    intro rest out dotdot h
    cases rest with
    | nil => simp [cleanLoop]
    | cons c tl =>
      have htl : tl.length < fuel := by simpa using h
      have htt : tl.tail.length < fuel := by
        have : tl.tail.length ≤ tl.length := by simp
        omega
      simp only [cleanLoop]
      split
      · exact ih _ _ _ htl
      · split
        · exact ih _ _ _ htl
        · split
          · split
            · exact ih _ _ _ htt
            · split
              · exact ih _ _ _ htt
              · exact ih _ _ _ htt
          · apply ih
            rename_i hc _ _
            have hd : (c != '/') = true := by simpa using hc
            simp only [List.dropWhile_cons, hd, if_true]
            have := length_dropWhile_le_length (fun x => x != '/') tl
            omega

theorem splitChars_ne_nil (sep : Char) (s : List Char) : splitChars sep s ≠ [] := by
  cases s with
  | nil => simp [splitChars]
  | cons c cs =>
    simp only [splitChars]
    split
    · simp
    · split <;> simp

/-- Without a separator `strings.Split` returns the whole string as its one piece. -/
theorem splitChars_of_not_mem (sep : Char) (s : List Char) (h : sep ∉ s) :
    splitChars sep s = [s] := by
  induction s with
  | nil => simp [splitChars]
  | cons c cs ih =>
    have hc : ¬ c = sep := fun e => h (by simp [e])
    have hcs : sep ∉ cs := fun e => h (by simp [e])
    simp [splitChars, hc, ih hcs]

/-- The first piece of `strings.Split` ends at the first separator. -/
theorem splitChars_append_sep (sep : Char) (host rest : List Char) (h : sep ∉ host) :
    splitChars sep (host ++ sep :: rest) = host :: splitChars sep rest := by
  induction host with
  | nil => simp [splitChars]
  | cons c cs ih =>
    have hc : ¬ c = sep := fun e => h (by simp [e])
    have hcs : sep ∉ cs := fun e => h (by simp [e])
    simp [splitChars, hc, ih hcs]

/-- With a separator `strings.Split` returns at least two pieces. -/
theorem splitChars_length_of_mem (sep : Char) (s : List Char) (h : sep ∈ s) :
    2 ≤ (splitChars sep s).length := by
  obtain ⟨host, rest, rfl, hhost⟩ : ∃ a b, s = a ++ sep :: b ∧ sep ∉ a := by
    induction s with
    | nil => simp at h
    | cons c cs ih =>
      by_cases hc : c = sep
      · exact ⟨[], cs, by simp [hc], by simp⟩
      · have hcs : sep ∈ cs := by
          rcases List.mem_cons.1 h with e | e
          · exact absurd e.symm hc
          · exact e
        obtain ⟨a, b, hab, ha⟩ := ih hcs
        refine ⟨c :: a, b, by simp [hab], ?_⟩
        simp only [List.mem_cons, not_or]
        exact ⟨fun e => hc e.symm, ha⟩
  rw [splitChars_append_sep sep host rest hhost]
  have := splitChars_ne_nil sep rest
  cases hr : splitChars sep rest with
  | nil => exact absurd hr this
  | cons x xs => simp

/-- The pieces of a string that starts with a character other than the separator:
the first piece is the text before the first separator, and every piece of what
follows from that separator on is empty or one of the other pieces. -/
theorem splitChars_cons_of_ne (sep c : Char) (cs : List Char) (hc : c ≠ sep) :
    ∃ pieces, splitChars sep (c :: cs) = (c :: cs.takeWhile (fun x => x != sep)) :: pieces ∧
      ∀ piece ∈ splitChars sep (cs.dropWhile (fun x => x != sep)),
        piece = [] ∨ piece ∈ pieces := by
  induction cs generalizing c with
  | nil => exact ⟨[], by simp [splitChars, hc], by simp [splitChars]⟩
  | cons d ds ih =>
    by_cases hd : d = sep
    · subst hd
      refine ⟨splitChars d ds, by simp [splitChars, hc], ?_⟩
      intro piece hp
      simp [splitChars] at hp
      rcases hp with h | h
      · exact Or.inl h
      · exact Or.inr h
    · obtain ⟨pieces, hsplit, hrest⟩ := ih d hd
      have hd' : (d != sep) = true := by simpa using hd
      refine ⟨pieces, ?_, ?_⟩
      · rw [splitChars, if_neg hc, hsplit]
        simp [hd']
      · simpa [List.dropWhile_cons, hd'] using hrest

/-- The loop of `path.Clean` on a rooted path keeps what it has written inside `/mnt`
as long as what is left to read has no `..` element. -/
theorem cleanLoop_underMnt (fuel : Nat) :
    ∀ (rest out result : List Char), ['.', '.'] ∉ splitChars '/' rest → underMnt out →
      cleanLoop true fuel rest out 1 = some result → underMnt result := by
  induction fuel with
  | zero => intro rest out result _ _ h; simp [cleanLoop] at h
  | succ fuel ih =>
    intro rest out result hno hout h
    cases rest with
    | nil =>
      simp only [cleanLoop, Option.some.injEq] at h
      exact h ▸ hout
    | cons c tl =>
      simp only [cleanLoop] at h
      by_cases hc : c = '/'
      · rw [if_pos hc] at h
        refine ih tl out result ?_ hout h
        intro hmem
        exact hno (by simp [splitChars, hc, hmem])
      · rw [if_neg hc] at h
        obtain ⟨pieces, hsplit, hrest⟩ := splitChars_cons_of_ne '/' c tl hc
        have hdrop : ['.', '.'] ∉ splitChars '/' (tl.dropWhile (fun x => x != '/')) := by
          intro hmem
          rcases hrest _ hmem with h0 | h0
          · simp at h0
          · exact hno (by rw [hsplit]; exact List.mem_cons_of_mem _ h0)
        by_cases hdot : c = '.' ∧ (tl = [] ∨ tl.head? = some '/')
        · rw [if_pos hdot] at h
          refine ih tl out result ?_ hout h
          have htl : tl.dropWhile (fun x => x != '/') = tl := by
            rcases hdot.2 with h0 | h0
            · simp [h0]
            · cases tl with
              | nil => rfl
              | cons d ds =>
                have hd : d = '/' := by simpa using h0
                simp [hd]
          rw [htl] at hdrop
          exact hdrop
        · rw [if_neg hdot] at h
          by_cases hdd : c = '.' ∧ tl.head? = some '.' ∧ (tl.tail = [] ∨ tl.tail.head? = some '/')
          · exfalso
            apply hno
            rw [hsplit]
            obtain ⟨hc1, hc2, hc3⟩ := hdd
            cases tl with
            | nil => simp at hc2
            | cons d ds =>
              have hd : d = '.' := by simpa using hc2
              subst hd
              subst hc1
              have htw : ds.takeWhile (fun x => x != '/') = [] := by
                rcases hc3 with h0 | h0
                · have : ds = [] := by simpa using h0
                  simp [this]
                · cases ds with
                  | nil => rfl
                  | cons e es =>
                    have he : e = '/' := by simpa using h0
                    simp [he]
              simp [htw]
          · rw [if_neg hdd] at h
            have hcne : (c != '/') = true := by simpa using hc
            simp only [List.dropWhile_cons, List.takeWhile_cons, hcne, if_true] at h
            refine ih _ _ result hdrop ?_ h
            obtain ⟨suffix, rfl, hsuf⟩ := hout
            refine ⟨suffix ++ '/' :: c :: tl.takeWhile (fun x => x != '/'), ?_, ?_⟩
            · simp
            · right
              rcases hsuf with h0 | h0
              · simp [h0]
              · cases suffix with
                | nil => simp at h0
                | cons d ds => simpa using h0

/-- The model of `path.Clean` agrees with Go's own test table. -/
theorem Clean_cleantests : ∀ t ∈ cleantests, Clean t.1 = t.2 := by
  decide

/-- The model of `path.Join` agrees with Go's own test table. -/
theorem Join_jointests : ∀ t ∈ jointests, Join t.1 = t.2 := by
  decide

/-- The model of `strings.Split` on sample strings. -/
theorem Split_samples :
    Split "server1:/export/vol1" ':' = ["server1", "/export/vol1"] ∧
    Split "" ':' = [""] ∧ Split "server1" ':' = ["server1"] ∧
    Split "a:b:c" ':' = ["a", "b", "c"] ∧ Split ":a:" ':' = ["", "a", ""] := by
  decide

/-- The fuel of `cleanChars` suffices: its loop always ends with a result. -/
theorem cleanChars_loop_isSome (path : List Char) :
    (cleanLoop true (path.length + 1) path.tail ['/'] 1).isSome = true ∧
    (cleanLoop false (path.length + 1) path [] 0).isSome = true := by
  constructor
  · apply cleanLoop_isSome
    have : path.tail.length ≤ path.length := by simp
    omega
  · apply cleanLoop_isSome
    omega

/-- Joining `/mnt/` with a remote path that has no `..` element gives `/mnt` or a path
that begins with `/mnt/`. -/
theorem Join_mnt_underMnt (remotePath : String)
    (hno : ['.', '.'] ∉ splitChars '/' remotePath.data) :
    underMnt (Join ["/mnt/", remotePath]).data := by
  have hjoin : (Join ["/mnt/", remotePath]).data =
      cleanChars ('/' :: 'm' :: 'n' :: 't' :: '/' :: '/' :: remotePath.data) := by
    have hd : ("/mnt/" ++ "/" ++ remotePath).data =
        '/' :: 'm' :: 'n' :: 't' :: '/' :: '/' :: remotePath.data := by
      simp [String.data_append]
    have hne : ¬ ("/mnt/" = "") := by decide
    simp only [Join, List.dropWhile_cons, hne, decide_False, Bool.false_eq_true, if_false,
      String.intercalate, String.intercalate.go, Clean, hd]
  rw [hjoin]
  have hsome := cleanLoop_isSome true
    (('/' :: 'm' :: 'n' :: 't' :: '/' :: '/' :: remotePath.data).length + 1)
    ('m' :: 'n' :: 't' :: '/' :: '/' :: remotePath.data) ['/'] 1 (by simp)
  have hinv : ∀ result, cleanLoop true
      (('/' :: 'm' :: 'n' :: 't' :: '/' :: '/' :: remotePath.data).length + 1)
      ('m' :: 'n' :: 't' :: '/' :: '/' :: remotePath.data) ['/'] 1 = some result →
      underMnt result := by
    intro result hstep
    simp only [List.length_cons] at hstep
    rw [cleanLoop] at hstep
    simp only [Char.reduceEq, if_false, false_and, List.dropWhile_cons, List.takeWhile_cons,
      bne_iff_ne, ne_eq, not_false_eq_true, decide_True, decide_False, if_true,
      List.length_singleton, not_true_eq_false, and_false, false_or, or_false, List.append_nil,
      Bool.false_eq_true, and_self, List.singleton_append, Char.reduceBNe, ↓reduceIte,
      List.nil_append] at hstep
    refine cleanLoop_underMnt _ _ _ result ?_ ⟨[], rfl, Or.inl rfl⟩ hstep
    simpa [splitChars] using hno
  unfold cleanChars
  rw [if_neg (by simp)]
  simp only [List.head?_cons, decide_True, if_true, List.tail_cons]
  split
  · rename_i out hrun
    have hres := hinv out hrun
    have hlen : out.length ≠ 0 := by
      obtain ⟨suffix, rfl, _⟩ := hres
      simp
    rw [if_neg hlen]
    exact hres
  · rename_i hrun
    rw [hrun] at hsome
    simp at hsome

/-! ## Lemmas on the operations -/

theorem remoteMountpointOf_eq_none_iff (nfsShare : String) :
    remoteMountpointOf nfsShare = none ↔ ':' ∉ nfsShare.data := by
  constructor
  · intro h hmem
    have hlen := splitChars_length_of_mem ':' nfsShare.data hmem
    simp only [remoteMountpointOf, Split] at h
    cases hs : splitChars ':' nfsShare.data with
    | nil => simp [hs] at hlen
    | cons a l =>
      cases l with
      | nil => simp [hs] at hlen
      | cons b l => simp [hs] at h
  · intro h
    simp [remoteMountpointOf, Split, splitChars_of_not_mem ':' _ h]

theorem remoteMountpointOf_host_path (host remotePath : String)
    (hhost : ':' ∉ host.data) (hpath : ':' ∉ remotePath.data) :
    remoteMountpointOf (host ++ ":" ++ remotePath) = some (Join ["/mnt/", remotePath]) := by
  have hdata : (host ++ ":" ++ remotePath).data = host.data ++ ':' :: remotePath.data := by
    simp [String.data_append]
  simp [remoteMountpointOf, Split, hdata, splitChars_append_sep ':' _ _ hhost,
    splitChars_of_not_mem ':' _ hpath]

/-- For a locator `host:remotePath` whose remote path has no `..` element, the derived
mount path is `/mnt` or begins with `/mnt/`. -/
theorem remoteMountpointOf_underMnt (host remotePath : String)
    (hhost : ':' ∉ host.data) (hremote : ':' ∉ remotePath.data)
    (hno : ['.', '.'] ∉ splitChars '/' remotePath.data) :
    ∃ remoteMountpoint,
      remoteMountpointOf (host ++ ":" ++ remotePath) = some remoteMountpoint ∧
      underMnt remoteMountpoint.data :=
  ⟨_, remoteMountpointOf_host_path host remotePath hhost hremote,
    Join_mnt_underMnt remotePath hno⟩

theorem GetVolume_trace (env : Env) (s : nfsRemoteClient) (name : String) :
    (GetVolume env s name).1 = [getRequest env s name] := by
  simp only [GetVolume, getRequest]
  split
  · rfl
  · split
    · rfl
    · split <;> rfl

theorem isMounted_trace (env : Env) (nfsShare remoteMountpoint : String) :
    (isMounted env nfsShare remoteMountpoint).1 = [probeCommand nfsShare remoteMountpoint] := by
  simp only [isMounted, probeCommand]
  split <;> rfl

theorem mount_trace (env : Env) (nfsShare remoteMountpoint : String) :
    (mount env nfsShare remoteMountpoint).1 = [mountCommand nfsShare remoteMountpoint] := by
  simp only [mount, mountCommand]
  split <;> rfl

/-- The shape of `Attach` once the remote calls have succeeded and the share has a
mount path: what is left is the probe and the local commands. -/
theorem Attach_of_remote_ok (env : Env) (s : nfsRemoteClient)
    (name nfsShare remoteMountpoint : String) (volumeConfig : Config)
    (hattach : AttachCallSucceeds env s name nfsShare)
    (hpath : remoteMountpointOf nfsShare = some remoteMountpoint)
    (hget : GetVolumeSucceeds env s name volumeConfig) :
    Attach env s name =
      if (isMounted env nfsShare remoteMountpoint).2 = true then
        ⟨[attachRequest env s name, getRequest env s name,
            probeCommand nfsShare remoteMountpoint],
          Outcome.returned (remoteMountpoint, none)⟩
      else
        match env.Execute "sudo" ["mkdir", "-p", remoteMountpoint] with
        | (_, some err) =>
          ⟨[attachRequest env s name, getRequest env s name,
              probeCommand nfsShare remoteMountpoint, mkdirCommand remoteMountpoint],
            Outcome.returned ("", some ("nfsRemoteClient: Failed to mkdir for remote mountpoint "
              ++ remoteMountpoint ++ " (share " ++ nfsShare ++ ", error \x27" ++ err ++
              "\x27)\n"))⟩
        | (_, none) =>
          match attachPermissions env volumeConfig remoteMountpoint with
          | (t5, some r) =>
            ⟨[attachRequest env s name, getRequest env s name,
                probeCommand nfsShare remoteMountpoint, mkdirCommand remoteMountpoint] ++ t5, r⟩
          | (t5, none) =>
            ⟨[attachRequest env s name, getRequest env s name,
                probeCommand nfsShare remoteMountpoint, mkdirCommand remoteMountpoint] ++ t5 ++
                [mountCommand nfsShare remoteMountpoint],
              Outcome.returned (mount env nfsShare remoteMountpoint).2⟩ := by
  obtain ⟨response, mountResponse, hput, hstatus, hdec, hshare⟩ := hattach
  have htr := GetVolume_trace env s name
  have hpr := isMounted_trace env nfsShare remoteMountpoint
  have hmt := mount_trace env nfsShare remoteMountpoint
  unfold GetVolumeSucceeds at hget
  rcases hg : GetVolume env s name with ⟨t2, vol, cfg, gerr⟩
  rw [hg] at htr hget
  simp only [Prod.mk.injEq] at hget
  obtain ⟨rfl, rfl⟩ := hget
  simp only at htr
  subst htr
  rcases hm : isMounted env nfsShare remoteMountpoint with ⟨t3, mounted⟩
  rw [hm] at hpr
  simp only at hpr
  subst hpr
  rcases hmo : mount env nfsShare remoteMountpoint with ⟨t6, r⟩
  rw [hmo] at hmt
  simp only at hmt
  subst hmt
  subst hshare
  simp only [Attach, hput, hstatus, hdec, hpath, hg, hm, hmo, attachRequest, mkdirCommand]
  cases mounted with
  | true => simp
  | false =>
    simp only [ne_eq, not_true_eq_false, if_false, Bool.false_eq_true]
    rcases hk : env.Execute "sudo" ["mkdir", "-p", remoteMountpoint] with ⟨o, _ | err⟩
    · simp only [List.cons_append, List.nil_append, List.append_assoc]
    · simp

/-- The permission step when `isPreexisting` is absent or `true`: nothing is run. -/
theorem attachPermissions_of_preexisting (env : Env) (volumeConfig : Config)
    (remoteMountpoint : String)
    (hpre : volumeConfig "isPreexisting" = none ∨
      volumeConfig "isPreexisting" = some (Value.bool true)) :
    attachPermissions env volumeConfig remoteMountpoint = ([], none) := by
  rcases hpre with h | h <;> simp [attachPermissions, Config.lookup, h]

/-- The permission step when `isPreexisting` is `false` and `uid` or `gid` is present:
one `chown`, whose owner operand is `fmt.Sprintf("%s:%s", uid, gid)`. -/
theorem attachPermissions_of_owner (env : Env) (volumeConfig : Config)
    (remoteMountpoint : String)
    (hpre : volumeConfig "isPreexisting" = some (Value.bool false))
    (howner : volumeConfig "uid" ≠ none ∨ volumeConfig "gid" ≠ none) :
    attachPermissions env volumeConfig remoteMountpoint =
      ([chownCommand ((volumeConfig.lookup "uid").1.fmtS ++ ":" ++
          (volumeConfig.lookup "gid").1.fmtS) remoteMountpoint],
        match (env.Execute "sudo" ["chown", (volumeConfig.lookup "uid").1.fmtS ++ ":" ++
          (volumeConfig.lookup "gid").1.fmtS, remoteMountpoint]).2 with
        | some err => some (Outcome.returned ("", some err))
        | none => none) := by
  have hspec : ((volumeConfig.lookup "uid").2 || (volumeConfig.lookup "gid").2) = true := by
    rcases howner with h | h
    · cases hu : volumeConfig "uid" with
      | none => exact absurd hu h
      | some v => simp [Config.lookup, hu]
    · cases hg : volumeConfig "gid" with
      | none => exact absurd hg h
      | some v => simp [Config.lookup, hg]
  simp only [attachPermissions, Config.lookup, hpre, chownCommand] at hspec ⊢
  rw [if_pos hspec]
  split <;> rename_i h <;> simp [h]

/-- The permission step when `isPreexisting` is `false` and neither `uid` nor `gid` is
present: one `chmod 777`. -/
theorem attachPermissions_of_no_owner (env : Env) (volumeConfig : Config)
    (remoteMountpoint : String)
    (hpre : volumeConfig "isPreexisting" = some (Value.bool false))
    (huid : volumeConfig "uid" = none) (hgid : volumeConfig "gid" = none) :
    attachPermissions env volumeConfig remoteMountpoint =
      ([chmodCommand "777" remoteMountpoint],
        match (env.Execute "sudo" ["chmod", "777", remoteMountpoint]).2 with
        | some err => some (Outcome.returned ("", some err))
        | none => none) := by
  simp only [attachPermissions, Config.lookup, hpre, huid, hgid, chmodCommand]
  simp only [Bool.or_self, Bool.false_eq_true, if_false]
  split <;> rename_i h <;> simp [h]

/-- Every run of `Attach` either runs nothing through the executor, or its remote
calls succeeded and the share has a mount path. -/
theorem Attach_cases (env : Env) (s : nfsRemoteClient) (name : String) :
    (∀ command args, Event.execute command args ∉ (Attach env s name).trace) ∨
    ∃ nfsShare remoteMountpoint volumeConfig,
      AttachCallSucceeds env s name nfsShare ∧
      remoteMountpointOf nfsShare = some remoteMountpoint ∧
      GetVolumeSucceeds env s name volumeConfig := by
  rcases hput : env.HttpExecute "PUT"
      (env.FormatURL s.storageApiURL s.backendName ["volumes", name, "attach"]) with
    ⟨response, _ | perr⟩
  · by_cases hstatus : response.StatusCode = 200
    · rcases hdec : env.UnmarshalMountResponse response with ⟨mountResponse, _ | derr⟩
      · cases hpath : remoteMountpointOf mountResponse.Mountpoint with
        | none => left; simp [Attach, hput, hstatus, hdec, hpath]
        | some remoteMountpoint =>
          have htr := GetVolume_trace env s name
          rcases hg : GetVolume env s name with ⟨t2, vol, cfg, _ | gerr⟩
          · right
            exact ⟨mountResponse.Mountpoint, remoteMountpoint, cfg,
              ⟨response, mountResponse, hput, hstatus, hdec, rfl⟩, hpath, by
                simp [GetVolumeSucceeds, hg]⟩
          · left
            rw [hg] at htr
            simp only at htr
            subst htr
            simp [Attach, hput, hstatus, hdec, hpath, hg, getRequest]
      · left; simp [Attach, hput, hstatus, hdec]
    · left; simp [Attach, hput, hstatus]
  · left; simp [Attach, hput]

/-- The permission step ends in one of four ways: nothing run; a panic with nothing
run; one chown or chmod that succeeded; one chown or chmod that failed, which ends
the run with that error and an empty path. -/
theorem attachPermissions_cases (env : Env) (volumeConfig : Config) (remoteMountpoint : String) :
    attachPermissions env volumeConfig remoteMountpoint = ([], none) ∨
    (∃ msg, attachPermissions env volumeConfig remoteMountpoint =
      ([], some (Outcome.panicked msg))) ∨
    (∃ e, (e.runs "chown" = true ∨ e.runs "chmod" = true) ∧ e.runs "mount" = false ∧
      e.runs "mkdir" = false ∧ e.succeeded env = true ∧
      attachPermissions env volumeConfig remoteMountpoint = ([e], none)) ∨
    (∃ e err, (e.runs "chown" = true ∨ e.runs "chmod" = true) ∧ e.runs "mount" = false ∧
      e.runs "mkdir" = false ∧ e.succeeded env = false ∧
      attachPermissions env volumeConfig remoteMountpoint =
        ([e], some (Outcome.returned ("", some err)))) := by
  cases hpre : volumeConfig "isPreexisting" with
  | none => left; exact attachPermissions_of_preexisting env _ _ (Or.inl hpre)
  | some v =>
    cases v with
    | null => right; left; exact ⟨_, by simp [attachPermissions, Config.lookup, hpre]; rfl⟩
    | string x => right; left; exact ⟨_, by simp [attachPermissions, Config.lookup, hpre]; rfl⟩
    | other x => right; left; exact ⟨_, by simp [attachPermissions, Config.lookup, hpre]; rfl⟩
    | bool b =>
      cases b with
      | true => left; exact attachPermissions_of_preexisting env _ _ (Or.inr hpre)
      | false =>
        right; right
        by_cases howner : volumeConfig "uid" ≠ none ∨ volumeConfig "gid" ≠ none
        · rw [attachPermissions_of_owner env _ _ hpre howner]
          rcases hc : env.Execute "sudo" ["chown", (volumeConfig.lookup "uid").1.fmtS ++ ":" ++
            (volumeConfig.lookup "gid").1.fmtS, remoteMountpoint] with ⟨o, _ | err⟩
          · left
            exact ⟨_, Or.inl (by simp [chownCommand, Event.runs]), by
              simp [chownCommand, Event.runs], by simp [chownCommand, Event.runs], by
              simp [chownCommand, Event.succeeded, hc], rfl⟩
          · right
            exact ⟨_, err, Or.inl (by simp [chownCommand, Event.runs]), by
              simp [chownCommand, Event.runs], by simp [chownCommand, Event.runs], by
              simp [chownCommand, Event.succeeded, hc], rfl⟩
        · simp only [ne_eq, not_or, not_not] at howner
          rw [attachPermissions_of_no_owner env _ _ hpre howner.1 howner.2]
          rcases hc : env.Execute "sudo" ["chmod", "777", remoteMountpoint] with ⟨o, _ | err⟩
          · left
            exact ⟨_, Or.inr (by simp [chmodCommand, Event.runs]), by
              simp [chmodCommand, Event.runs], by simp [chmodCommand, Event.runs], by
              simp [chmodCommand, Event.succeeded, hc], rfl⟩
          · right
            exact ⟨_, err, Or.inr (by simp [chmodCommand, Event.runs]), by
              simp [chmodCommand, Event.runs], by simp [chmodCommand, Event.runs], by
              simp [chmodCommand, Event.succeeded, hc], rfl⟩

theorem Event.execute_of_runs (program : String) (e : Event) (h : e.runs program = true) :
    ∃ command args, e = Event.execute command args := by
  cases e with
  | execute command args => exact ⟨command, args, rfl⟩
  | http method url => simp [Event.runs] at h
  | output command args => simp [Event.runs] at h

theorem Event.execute_of_not_succeeded (env : Env) (e : Event) (h : e.succeeded env = false) :
    ∃ command args, e = Event.execute command args := by
  cases e with
  | execute command args => exact ⟨command, args, rfl⟩
  | http method url => simp [Event.succeeded] at h
  | output command args => simp [Event.succeeded] at h

theorem runs_requests (env : Env) (s : nfsRemoteClient) (name nfsShare p program : String) :
    (attachRequest env s name).runs program = false ∧
    (getRequest env s name).runs program = false ∧
    (detachRequest env s name).runs program = false ∧
    (probeCommand nfsShare p).runs program = false := by
  simp [attachRequest, getRequest, detachRequest, probeCommand, Event.runs]

theorem succeeded_requests (env : Env) (s : nfsRemoteClient) (name nfsShare p : String) :
    (attachRequest env s name).succeeded env = true ∧
    (getRequest env s name).succeeded env = true ∧
    (detachRequest env s name).succeeded env = true ∧
    (probeCommand nfsShare p).succeeded env = true := by
  simp [attachRequest, getRequest, detachRequest, probeCommand, Event.succeeded]

theorem runs_mkdirCommand (p : String) :
    (mkdirCommand p).runs "mkdir" = true ∧ (mkdirCommand p).runs "chown" = false ∧
    (mkdirCommand p).runs "chmod" = false ∧ (mkdirCommand p).runs "mount" = false := by
  simp [mkdirCommand, Event.runs]

theorem runs_mountCommand (nfsShare p : String) :
    (mountCommand nfsShare p).runs "mkdir" = false ∧
    (mountCommand nfsShare p).runs "chown" = false ∧
    (mountCommand nfsShare p).runs "chmod" = false ∧
    (mountCommand nfsShare p).runs "mount" = true := by
  simp [mountCommand, Event.runs]

theorem unmount_trace (env : Env) (remoteMountpoint : String) :
    (unmount env remoteMountpoint).1 = [umountCommand remoteMountpoint] := by
  simp only [unmount, umountCommand]
  split <;> rfl

/-- The three shapes of a run of `Detach`: only the `GetVolume` request; the request
and a failed umount, ending with an error; the request, a successful umount and the
remote detach request. -/
theorem Detach_shape (env : Env) (s : nfsRemoteClient) (name : String) :
    (Detach env s name).trace = [getRequest env s name] ∨
    (∃ p msg, (Detach env s name).trace = [getRequest env s name, umountCommand p] ∧
      (umountCommand p).succeeded env = false ∧
      (Detach env s name).outcome = Outcome.returned (some msg)) ∨
    (∃ p, (Detach env s name).trace =
        [getRequest env s name, umountCommand p, detachRequest env s name] ∧
      (umountCommand p).succeeded env = true) := by
  have htr := GetVolume_trace env s name
  rcases hg : GetVolume env s name with ⟨t1, vol, cfg, _ | gerr⟩ <;> rw [hg] at htr <;>
    simp only at htr <;> subst htr
  · cases hn : nfsShareOf cfg with
    | none => left; simp [Detach, hg, hn]
    | some nfs_share =>
      cases hp : remoteMountpointOf nfs_share with
      | none => left; simp [Detach, hg, hn, hp]
      | some p =>
        rcases hu : env.Execute "sudo" ["umount", p] with ⟨o, _ | uerr⟩
        · right; right
          refine ⟨p, ?_, by simp [umountCommand, Event.succeeded, hu]⟩
          simp only [Detach, hg, hn, hp, unmount, hu, detachRequest, umountCommand]
          split
          · rfl
          · split <;> rfl
        · right; left
          exact ⟨p, _, by simp [Detach, hg, hn, hp, unmount, hu, umountCommand], by
            simp [umountCommand, Event.succeeded, hu], by
            simp only [Detach, hg, hn, hp, unmount, hu]; rfl⟩
  · left; simp [Detach, hg]

/-! ## The claims -/

/-- C1: `Attach` is idempotent on an already-mounted volume.  When the remote attach
call succeeds with the locator `host:remotePath`, `GetVolume` succeeds and the probe
`isMounted` answers true for the locator and the derived path `/mnt/remotePath`,
`Attach` returns the derived path with no error, and the whole run consists of the two
remote requests and the probe: it runs no command (no mkdir, chown, chmod, mount)
through the executor. -/
theorem Attach_idempotent_when_mounted (env : Env) (s : nfsRemoteClient)
    (name host remotePath : String) (volumeConfig : Config)
    (hhost : ':' ∉ host.data) (hremote : ':' ∉ remotePath.data)
    (hattach : AttachCallSucceeds env s name (host ++ ":" ++ remotePath))
    (hget : GetVolumeSucceeds env s name volumeConfig)
    (hmounted :
      (isMounted env (host ++ ":" ++ remotePath) (Join ["/mnt/", remotePath])).2 = true) :
    (Attach env s name).outcome = Outcome.returned (Join ["/mnt/", remotePath], none) ∧
    (Attach env s name).trace =
      [attachRequest env s name, getRequest env s name,
        probeCommand (host ++ ":" ++ remotePath) (Join ["/mnt/", remotePath])] ∧
    ∀ command args, Event.execute command args ∉ (Attach env s name).trace := by
  have hpath := remoteMountpointOf_host_path host remotePath hhost hremote
  rw [Attach_of_remote_ok env s name _ _ volumeConfig hattach hpath hget, if_pos hmounted]
  simp [attachRequest, getRequest, probeCommand]

/-- C1, at a sample input: the volume of the share `server1:/export/vol1`, already
mounted at `/mnt/export/vol1`. -/
theorem Attach_idempotent_when_mounted_witness :
    (Attach (sampleEnv "server1:/export/vol1" configOwned true []) sampleClient "vol1").outcome =
      Outcome.returned ("/mnt/export/vol1", none) ∧
    ∀ command args, Event.execute command args ∉
      (Attach (sampleEnv "server1:/export/vol1" configOwned true []) sampleClient "vol1").trace :=
  have h := Attach_idempotent_when_mounted
    (sampleEnv "server1:/export/vol1" configOwned true []) sampleClient "vol1"
    "server1" "/export/vol1" configOwned (by decide) (by decide)
    ⟨⟨200, ""⟩, ⟨"server1:/export/vol1"⟩, rfl, rfl, rfl, rfl⟩ rfl (by decide)
  ⟨h.1, h.2.2⟩

/-- C2: in every run of `Detach` the remote detach request
(`PUT .../volumes/<name>/detach`) is sent at most once; when it is sent, the run is
exactly the `GetVolume` request, then a umount that succeeded, then the detach request;
a run whose umount succeeded sends it exactly once; and a run whose umount failed
returns an error and never sends it. -/
theorem Detach_marks_detached_only_after_umount (env : Env) (s : nfsRemoteClient)
    (name : String) :
    (Detach env s name).trace.count (detachRequest env s name) ≤ 1 ∧
    (detachRequest env s name ∈ (Detach env s name).trace →
      ∃ p, (Detach env s name).trace =
          [getRequest env s name, umountCommand p, detachRequest env s name] ∧
        (umountCommand p).succeeded env = true) ∧
    (∀ p, umountCommand p ∈ (Detach env s name).trace →
      (umountCommand p).succeeded env = true →
      (Detach env s name).trace.count (detachRequest env s name) = 1) ∧
    (∀ p, umountCommand p ∈ (Detach env s name).trace →
      (umountCommand p).succeeded env = false →
      (∃ msg, (Detach env s name).outcome = Outcome.returned (some msg)) ∧
      detachRequest env s name ∉ (Detach env s name).trace) := by
  rcases Detach_shape env s name with h | ⟨p, msg, h, hf, ho⟩ | ⟨p, h, hs⟩
  · rw [h]
    simp [getRequest, detachRequest, umountCommand]
  · rw [h, ho]
    refine ⟨by simp [getRequest, detachRequest, umountCommand], ?_, ?_, ?_⟩
    · simp [getRequest, detachRequest, umountCommand]
    · intro q hq hqs
      have hqp : q = p := by simpa [getRequest, umountCommand] using hq
      subst hqp
      rw [hf] at hqs
      exact absurd hqs (by simp)
    · intro q _ _
      exact ⟨⟨msg, rfl⟩, by simp [getRequest, detachRequest, umountCommand]⟩
  · rw [h]
    refine ⟨by simp [getRequest, detachRequest, umountCommand], ?_, ?_, ?_⟩
    · intro _
      exact ⟨p, rfl, hs⟩
    · intro q _ _
      simp [getRequest, detachRequest, umountCommand]
    · intro q hq hqs
      have hqp : q = p := by simpa [getRequest, umountCommand, detachRequest] using hq
      subst hqp
      rw [hs] at hqs
      exact absurd hqs (by simp)

/-- C2, at two sample inputs: with a failing umount `Detach` returns an error and the
run has no detach request; with a successful umount the run is the `GetVolume`
request, the umount, then exactly one detach request. -/
theorem Detach_marks_detached_only_after_umount_witness :
    ((∃ msg, (Detach (sampleEnv "" configShare false ["umount"]) sampleClient "vol1").outcome =
        Outcome.returned (some msg)) ∧
      detachRequest (sampleEnv "" configShare false ["umount"]) sampleClient "vol1" ∉
        (Detach (sampleEnv "" configShare false ["umount"]) sampleClient "vol1").trace) ∧
    (Detach (sampleEnv "" configShare false []) sampleClient "vol1").trace.count
      (detachRequest (sampleEnv "" configShare false []) sampleClient "vol1") = 1 :=
  ⟨(Detach_marks_detached_only_after_umount (sampleEnv "" configShare false ["umount"])
      sampleClient "vol1").2.2.2 "/mnt/export/vol1" (by decide) (by decide),
   (Detach_marks_detached_only_after_umount (sampleEnv "" configShare false [])
      sampleClient "vol1").2.2.1 "/mnt/export/vol1" (by decide) (by decide)⟩

/-- With `isPreexisting` false and both `uid` and `gid` present as strings, an `Attach`
that is not short-circuited runs exactly one chown, to `uid:gid`, and no chmod. -/
theorem Attach_chown_of_string_owner (env : Env) (s : nfsRemoteClient)
    (name nfsShare remoteMountpoint uid gid : String) (volumeConfig : Config)
    (hattach : AttachCallSucceeds env s name nfsShare)
    (hpath : remoteMountpointOf nfsShare = some remoteMountpoint)
    (hget : GetVolumeSucceeds env s name volumeConfig)
    (hpre : volumeConfig "isPreexisting" = some (Value.bool false))
    (huid : volumeConfig "uid" = some (Value.string uid))
    (hgid : volumeConfig "gid" = some (Value.string gid))
    (hnot : (isMounted env nfsShare remoteMountpoint).2 = false)
    (hmkdir : (env.Execute "sudo" ["mkdir", "-p", remoteMountpoint]).2 = none) :
    (Attach env s name).trace.filter (Event.runs "chown") =
      [chownCommand (uid ++ ":" ++ gid) remoteMountpoint] ∧
    (Attach env s name).trace.filter (Event.runs "chmod") = [] := by
  have hperm := attachPermissions_of_owner env volumeConfig remoteMountpoint hpre
    (Or.inl (by simp [huid]))
  simp only [Config.lookup, huid, hgid, Value.fmtS] at hperm
  rw [Attach_of_remote_ok env s name _ _ volumeConfig hattach hpath hget]
  rcases hk : env.Execute "sudo" ["mkdir", "-p", remoteMountpoint] with ⟨o, kerr⟩
  rw [hk] at hmkdir
  simp only at hmkdir
  subst hmkdir
  rcases hc : env.Execute "sudo" ["chown", uid ++ ":" ++ gid, remoteMountpoint] with
    ⟨o2, _ | cerr⟩ <;>
    rw [hc] at hperm <;>
    simp [hnot, hperm, attachRequest, getRequest, probeCommand, mkdirCommand, chownCommand,
      mountCommand, Event.runs]

/-- C3, the code at the config `{isPreexisting: false, uid: "1000"}` (no `gid`) and the
share `server1:/export/vol1`: the one chown that `Attach` runs names the owner
`1000:%!s(<nil>)`, the rendering of the absent `gid` under `%s`, not an owner built
from the values of the config. -/
theorem Attach_chown_with_absent_gid :
    (Attach (sampleEnv "server1:/export/vol1" configUidOnly false []) sampleClient "vol1").trace.filter
        (Event.runs "chown") =
      [chownCommand "1000:%!s(<nil>)" "/mnt/export/vol1"] := by
  decide

/-- C4: with `isPreexisting` present and false and neither `uid` nor `gid` present, an
`Attach` that is not short-circuited (remote calls succeeded, share not mounted, mkdir
succeeded) runs exactly one chmod, `chmod 777` on the derived mount path, and no chown;
the mount follows exactly when the chmod succeeded. -/
theorem Attach_chmod_777_without_owner (env : Env) (s : nfsRemoteClient)
    (name nfsShare remoteMountpoint : String) (volumeConfig : Config)
    (hattach : AttachCallSucceeds env s name nfsShare)
    (hpath : remoteMountpointOf nfsShare = some remoteMountpoint)
    (hget : GetVolumeSucceeds env s name volumeConfig)
    (hpre : volumeConfig "isPreexisting" = some (Value.bool false))
    (huid : volumeConfig "uid" = none) (hgid : volumeConfig "gid" = none)
    (hnot : (isMounted env nfsShare remoteMountpoint).2 = false)
    (hmkdir : (env.Execute "sudo" ["mkdir", "-p", remoteMountpoint]).2 = none) :
    (Attach env s name).trace =
      [attachRequest env s name, getRequest env s name, probeCommand nfsShare remoteMountpoint,
        mkdirCommand remoteMountpoint, chmodCommand "777" remoteMountpoint] ++
      (if (env.Execute "sudo" ["chmod", "777", remoteMountpoint]).2 = none then
        [mountCommand nfsShare remoteMountpoint] else []) ∧
    (Attach env s name).trace.filter (Event.runs "chmod") = [chmodCommand "777" remoteMountpoint] ∧
    (Attach env s name).trace.filter (Event.runs "chown") = [] := by
  have hperm := attachPermissions_of_no_owner env volumeConfig remoteMountpoint hpre huid hgid
  rw [Attach_of_remote_ok env s name _ _ volumeConfig hattach hpath hget]
  rcases hk : env.Execute "sudo" ["mkdir", "-p", remoteMountpoint] with ⟨o, kerr⟩
  rw [hk] at hmkdir
  simp only at hmkdir
  subst hmkdir
  rcases hc : env.Execute "sudo" ["chmod", "777", remoteMountpoint] with ⟨o2, _ | cerr⟩ <;>
    rw [hc] at hperm <;>
    simp [hnot, hperm, attachRequest, getRequest, probeCommand, mkdirCommand, chmodCommand,
      mountCommand, Event.runs]

/-- C4, at a sample input: the config `{isPreexisting: false}` and the share
`server1:/export/vol1`, not mounted. -/
theorem Attach_chmod_777_without_owner_witness :
    (Attach (sampleEnv "server1:/export/vol1" configFresh false []) sampleClient "vol1").trace.filter
        (Event.runs "chmod") = [chmodCommand "777" "/mnt/export/vol1"] ∧
    (Attach (sampleEnv "server1:/export/vol1" configFresh false []) sampleClient "vol1").trace.filter
        (Event.runs "chown") = [] :=
  (Attach_chmod_777_without_owner (sampleEnv "server1:/export/vol1" configFresh false [])
    sampleClient "vol1" "server1:/export/vol1" "/mnt/export/vol1" configFresh
    ⟨⟨200, ""⟩, ⟨"server1:/export/vol1"⟩, rfl, rfl, rfl, rfl⟩ (by decide) rfl rfl rfl rfl
    (by decide) (by decide)).2

/-- C5: with `isPreexisting` absent or `true` (whatever `uid` and `gid` are), no run
of `Attach` runs a chown or a chmod; and when the run is not short-circuited (remote
calls succeeded, share not mounted) and mkdir succeeded, the command after mkdir is
the mount. -/
theorem Attach_no_permission_change_when_preexisting (env : Env) (s : nfsRemoteClient)
    (name : String) (volumeConfig : Config)
    (hget : GetVolumeSucceeds env s name volumeConfig)
    (hpre : volumeConfig "isPreexisting" = none ∨
      volumeConfig "isPreexisting" = some (Value.bool true)) :
    (∀ e ∈ (Attach env s name).trace, e.runs "chown" = false ∧ e.runs "chmod" = false) ∧
    (∀ nfsShare remoteMountpoint,
      AttachCallSucceeds env s name nfsShare →
      remoteMountpointOf nfsShare = some remoteMountpoint →
      (isMounted env nfsShare remoteMountpoint).2 = false →
      (env.Execute "sudo" ["mkdir", "-p", remoteMountpoint]).2 = none →
      (Attach env s name).trace =
        [attachRequest env s name, getRequest env s name,
          probeCommand nfsShare remoteMountpoint, mkdirCommand remoteMountpoint,
          mountCommand nfsShare remoteMountpoint]) := by
  have hshape : ∀ nfsShare remoteMountpoint,
      AttachCallSucceeds env s name nfsShare →
      remoteMountpointOf nfsShare = some remoteMountpoint →
      (Attach env s name).trace =
        [attachRequest env s name, getRequest env s name,
          probeCommand nfsShare remoteMountpoint] ∨
      (Attach env s name).trace =
        [attachRequest env s name, getRequest env s name,
          probeCommand nfsShare remoteMountpoint, mkdirCommand remoteMountpoint] ∨
      ((isMounted env nfsShare remoteMountpoint).2 = false ∧
        (env.Execute "sudo" ["mkdir", "-p", remoteMountpoint]).2 = none ∧
        (Attach env s name).trace =
        [attachRequest env s name, getRequest env s name,
          probeCommand nfsShare remoteMountpoint, mkdirCommand remoteMountpoint,
          mountCommand nfsShare remoteMountpoint]) := by
    intro nfsShare remoteMountpoint hattach hpath
    rw [Attach_of_remote_ok env s name _ _ volumeConfig hattach hpath hget,
      attachPermissions_of_preexisting env _ _ hpre]
    by_cases hm : (isMounted env nfsShare remoteMountpoint).2 = true
    · left; simp [hm]
    · right
      rcases hk : env.Execute "sudo" ["mkdir", "-p", remoteMountpoint] with ⟨o, _ | kerr⟩
      · right; simp [hm]
      · left; simp [hm]
  constructor
  · intro e he
    rcases Attach_cases env s name with hnone | ⟨nfsShare, remoteMountpoint, cfg, hattach, hpath, _⟩
    · constructor
      · by_contra hr
        obtain ⟨c, a, rfl⟩ := Event.execute_of_runs "chown" e (by simpa using hr)
        exact hnone c a he
      · by_contra hr
        obtain ⟨c, a, rfl⟩ := Event.execute_of_runs "chmod" e (by simpa using hr)
        exact hnone c a he
    · rcases hshape nfsShare remoteMountpoint hattach hpath with h | h | ⟨_, _, h⟩ <;>
        rw [h] at he <;>
        simp only [List.mem_cons, List.mem_singleton, List.not_mem_nil, or_false] at he <;>
        rcases he with rfl | rfl | rfl | rfl | rfl <;>
        simp [attachRequest, getRequest, probeCommand, mkdirCommand, mountCommand, Event.runs]
  · intro nfsShare remoteMountpoint hattach hpath hnot hmkdir
    rcases hshape nfsShare remoteMountpoint hattach hpath with h | h | ⟨_, _, h⟩
    · exfalso
      rw [Attach_of_remote_ok env s name _ _ volumeConfig hattach hpath hget,
        attachPermissions_of_preexisting env _ _ hpre] at h
      rcases hk : env.Execute "sudo" ["mkdir", "-p", remoteMountpoint] with ⟨o, kerr⟩
      rw [hk] at hmkdir h
      simp only at hmkdir
      subst hmkdir
      simp [hnot] at h
    · exfalso
      rw [Attach_of_remote_ok env s name _ _ volumeConfig hattach hpath hget,
        attachPermissions_of_preexisting env _ _ hpre] at h
      rcases hk : env.Execute "sudo" ["mkdir", "-p", remoteMountpoint] with ⟨o, kerr⟩
      rw [hk] at hmkdir h
      simp only at hmkdir
      subst hmkdir
      simp [hnot] at h
    · exact h

/-- C5, at a sample input: the config `{isPreexisting: true, uid: "1000", gid: "1000"}`
and the share `server1:/export/vol1`, not mounted: mkdir is followed by the mount. -/
theorem Attach_no_permission_change_when_preexisting_witness :
    (Attach (sampleEnv "server1:/export/vol1" configPreexisting false [])
        sampleClient "vol1").trace =
      [attachRequest (sampleEnv "server1:/export/vol1" configPreexisting false [])
          sampleClient "vol1",
        getRequest (sampleEnv "server1:/export/vol1" configPreexisting false [])
          sampleClient "vol1",
        probeCommand "server1:/export/vol1" "/mnt/export/vol1",
        mkdirCommand "/mnt/export/vol1",
        mountCommand "server1:/export/vol1" "/mnt/export/vol1"] :=
  (Attach_no_permission_change_when_preexisting
    (sampleEnv "server1:/export/vol1" configPreexisting false []) sampleClient "vol1"
    configPreexisting rfl (Or.inr rfl)).2 "server1:/export/vol1" "/mnt/export/vol1"
    ⟨⟨200, ""⟩, ⟨"server1:/export/vol1"⟩, rfl, rfl, rfl, rfl⟩ (by decide) (by decide) (by decide)

/-- C6: a failing local command aborts `Attach`.  In every run: if the mkdir was run
and failed, `Attach` returns an error with an empty path and the run contains no
chown, chmod or mount; if a chown or chmod was run and failed, `Attach` returns an
error with an empty path and the run contains no mount; and whenever `Attach` returns
a non-empty path, every command the run issued through the executor succeeded. -/
theorem Attach_aborts_on_failed_command (env : Env) (s : nfsRemoteClient) (name : String) :
    (∀ e ∈ (Attach env s name).trace, e.runs "mkdir" = true → e.succeeded env = false →
      (∃ msg, (Attach env s name).outcome = Outcome.returned ("", some msg)) ∧
      ∀ e' ∈ (Attach env s name).trace,
        e'.runs "chown" = false ∧ e'.runs "chmod" = false ∧ e'.runs "mount" = false) ∧
    (∀ e ∈ (Attach env s name).trace, e.runs "chown" = true ∨ e.runs "chmod" = true →
      e.succeeded env = false →
      (∃ msg, (Attach env s name).outcome = Outcome.returned ("", some msg)) ∧
      ∀ e' ∈ (Attach env s name).trace, e'.runs "mount" = false) ∧
    (∀ path err, (Attach env s name).outcome = Outcome.returned (path, err) → path ≠ "" →
      ∀ e ∈ (Attach env s name).trace, e.succeeded env = true) := by
  rcases Attach_cases env s name with hnone | ⟨nfsShare, p, cfg, hattach, hpath, hget⟩
  · refine ⟨?_, ?_, ?_⟩
    · intro e he hr _
      obtain ⟨c, a, rfl⟩ := Event.execute_of_runs "mkdir" e hr
      exact absurd he (hnone c a)
    · intro e he _ hf
      obtain ⟨c, a, rfl⟩ := Event.execute_of_not_succeeded env e hf
      exact absurd he (hnone c a)
    · intro path err _ _ e he
      by_contra hf
      obtain ⟨c, a, rfl⟩ := Event.execute_of_not_succeeded env e (by simpa using hf)
      exact hnone c a he
  · have hreq := runs_requests env s name nfsShare p
    have hsuc := succeeded_requests env s name nfsShare p
    have hmkr := runs_mkdirCommand p
    have hmor := runs_mountCommand nfsShare p
    rw [Attach_of_remote_ok env s name _ _ cfg hattach hpath hget]
    by_cases hm : (isMounted env nfsShare p).2 = true
    · simp [hm, hreq, hsuc]
    · rw [if_neg hm]
      rcases hk : env.Execute "sudo" ["mkdir", "-p", p] with ⟨o, _ | kerr⟩
      · have hmk : (mkdirCommand p).succeeded env = true := by
          simp [mkdirCommand, Event.succeeded, hk]
        rcases attachPermissions_cases env cfg p with h | ⟨msg, h⟩ |
            ⟨c, hc, hcm, hck, hcs, h⟩ | ⟨c, err, hc, hcm, hck, hcs, h⟩ <;> rw [h]
        · rcases hmo : env.Execute "sudo" ["mount", "-t", "nfs", nfsShare, p] with
            ⟨o2, _ | merr⟩
          · have hms : (mountCommand nfsShare p).succeeded env = true := by
              simp [mountCommand, Event.succeeded, hmo]
            simp [hmk, hms, mount, hmo, hreq, hsuc, hmkr, hmor]
          · simp [hmk, mount, hmo, hreq, hsuc, hmkr, hmor]
        · simp [hmk, hreq, hsuc, hmkr]
        · rcases hmo : env.Execute "sudo" ["mount", "-t", "nfs", nfsShare, p] with
            ⟨o2, _ | merr⟩
          · have hms : (mountCommand nfsShare p).succeeded env = true := by
              simp [mountCommand, Event.succeeded, hmo]
            simp [hmk, hms, hcs, hck, mount, hmo, hreq, hsuc, hmkr, hmor]
          · simp [hmk, hcs, hck, mount, hmo, hreq, hsuc, hmkr, hmor]
        · simp [hmk, hcs, hcm, hck, hreq, hsuc, hmkr]
      · have hmk : (mkdirCommand p).succeeded env = false := by
          simp [mkdirCommand, Event.succeeded, hk]
        simp [hmk, hreq, hsuc, hmkr]

/-- C6, at two sample inputs: a failing mkdir, and a failing chown after a successful
mkdir. -/
theorem Attach_aborts_on_failed_command_witness :
    ((∃ msg, (Attach (sampleEnv "server1:/export/vol1" configOwned false ["mkdir"])
        sampleClient "vol1").outcome = Outcome.returned ("", some msg)) ∧
      ∀ e ∈ (Attach (sampleEnv "server1:/export/vol1" configOwned false ["mkdir"])
        sampleClient "vol1").trace,
        e.runs "chown" = false ∧ e.runs "chmod" = false ∧ e.runs "mount" = false) ∧
    ((∃ msg, (Attach (sampleEnv "server1:/export/vol1" configOwned false ["chown"])
        sampleClient "vol1").outcome = Outcome.returned ("", some msg)) ∧
      ∀ e ∈ (Attach (sampleEnv "server1:/export/vol1" configOwned false ["chown"])
        sampleClient "vol1").trace, e.runs "mount" = false) :=
  ⟨(Attach_aborts_on_failed_command (sampleEnv "server1:/export/vol1" configOwned false ["mkdir"])
      sampleClient "vol1").1 (mkdirCommand "/mnt/export/vol1") (by decide) (by decide) (by decide),
   (Attach_aborts_on_failed_command (sampleEnv "server1:/export/vol1" configOwned false ["chown"])
      sampleClient "vol1").2.1 (chownCommand "1000:1000" "/mnt/export/vol1") (by decide)
      (by decide) (by decide)⟩

/-- When the remote attach call succeeds with a locator that has no `:`, `Attach`
panics after the attach request. -/
theorem Attach_panics_without_separator (env : Env) (s : nfsRemoteClient)
    (name nfsShare : String)
    (hattach : AttachCallSucceeds env s name nfsShare) (hloc : ':' ∉ nfsShare.data) :
    (∃ msg, (Attach env s name).outcome = Outcome.panicked msg) ∧
    (Attach env s name).trace = [attachRequest env s name] := by
  obtain ⟨response, mountResponse, hput, hstatus, hdec, rfl⟩ := hattach
  have hpath := (remoteMountpointOf_eq_none_iff _).2 hloc
  simp [Attach, hput, hstatus, hdec, hpath, attachRequest]

/-- C7, the code at an attach response (status 200, decodable) whose share locator is
empty, and at one whose locator `server1` has no `:`: `Attach` does not return an
error, it panics (index out of range); the run is the attach request alone. -/
theorem Attach_panics_on_missing_locator :
    Attach (sampleEnv "" configOwned false []) sampleClient "vol1" =
      ⟨[attachRequest (sampleEnv "" configOwned false []) sampleClient "vol1"],
        Outcome.panicked "runtime error: index out of range"⟩ ∧
    Attach (sampleEnv "server1" configOwned false []) sampleClient "vol1" =
      ⟨[attachRequest (sampleEnv "server1" configOwned false []) sampleClient "vol1"],
        Outcome.panicked "runtime error: index out of range"⟩ := by
  constructor <;> rfl

/-- When `GetVolume` succeeds and the config has no string under `nfs_share`, or a
string without `:`, `Detach` panics after the `GetVolume` request. -/
theorem Detach_panics_without_locator (env : Env) (s : nfsRemoteClient) (name : String)
    (volumeConfig : Config) (hget : GetVolumeSucceeds env s name volumeConfig)
    (hloc : ∀ nfs_share, volumeConfig "nfs_share" = some (Value.string nfs_share) →
      ':' ∉ nfs_share.data) :
    (∃ msg, (Detach env s name).outcome = Outcome.panicked msg) ∧
    (Detach env s name).trace = [getRequest env s name] := by
  have htr := GetVolume_trace env s name
  unfold GetVolumeSucceeds at hget
  rcases hg : GetVolume env s name with ⟨t1, vol, cfg, gerr⟩
  rw [hg] at htr hget
  simp only [Prod.mk.injEq] at hget htr
  obtain ⟨rfl, rfl⟩ := hget
  subst htr
  cases hn : nfsShareOf cfg with
  | none => simp [Detach, hg, hn]
  | some nfs_share =>
    have hcfg : cfg "nfs_share" = some (Value.string nfs_share) := by
      simp only [nfsShareOf, Config.lookup] at hn
      cases hc : cfg "nfs_share" with
      | none => simp [hc] at hn
      | some v =>
        cases v <;> simp [hc] at hn
        rw [hn]
    have hpath := (remoteMountpointOf_eq_none_iff _).2 (hloc nfs_share hcfg)
    simp [Detach, hg, hn, hpath]

/-- C8, the code at a config without `nfs_share`, at one whose `nfs_share` is not a
string, and at one whose `nfs_share` has no `:`: `Detach` does not return an error, it
panics; the run is the `GetVolume` request alone. -/
theorem Detach_panics_on_missing_locator :
    Detach (sampleEnv "" (configOf []) false []) sampleClient "vol1" =
      ⟨[getRequest (sampleEnv "" (configOf []) false []) sampleClient "vol1"],
        Outcome.panicked "interface conversion: interface \x7b\x7d is not string"⟩ ∧
    Detach (sampleEnv "" (configOf [("nfs_share", Value.bool true)]) false []) sampleClient "vol1" =
      ⟨[getRequest (sampleEnv "" (configOf []) false []) sampleClient "vol1"],
        Outcome.panicked "interface conversion: interface \x7b\x7d is not string"⟩ ∧
    Detach (sampleEnv "" (configOf [("nfs_share", Value.string "server1")]) false [])
        sampleClient "vol1" =
      ⟨[getRequest (sampleEnv "" (configOf []) false []) sampleClient "vol1"],
        Outcome.panicked "runtime error: index out of range"⟩ := by
  refine ⟨?_, ?_, ?_⟩ <;> rfl

/-- C9, the code at locators with more than one `:`: the derivation does not fail.
For `host:/a:/b` it yields `/mnt/a`, built from only the part of the remote path
`/a:/b` before its `:`; for `[fe80::1]:/export` it yields `/mnt`. -/
theorem remoteMountpointOf_two_separators :
    remoteMountpointOf "host:/a:/b" = some "/mnt/a" ∧
    remoteMountpointOf "[fe80::1]:/export" = some "/mnt" := by
  decide

/-- C10, the code at the locator `host:/../etc`: the derived path is `/etc`, outside
`/mnt`; `Attach` creates and mounts it, `Detach` unmounts it. -/
theorem remoteMountpointOf_escapes_mnt :
    remoteMountpointOf "host:/../etc" = some "/etc" ∧
    (Attach (sampleEnv "host:/../etc" (configOf []) false []) sampleClient "vol1").trace.filter
        (fun e => e.runs "mkdir" || e.runs "mount") =
      [mkdirCommand "/etc", mountCommand "host:/../etc" "/etc"] ∧
    (Detach (sampleEnv "" (configOf [("nfs_share", Value.string "host:/../etc")]) false [])
        sampleClient "vol1").trace.filter (Event.runs "umount") = [umountCommand "/etc"] := by
  decide

end Ubiquity
